import Mathlib

/-!
Verification of the juju state layer exemplar: the network-space lifecycle
state machine (`state/spaces.go`) and the clock-skew arithmetic for lease
timing (`state/lease/skew.go`), shallowly embedded in Lean.

Time instants are modelled as integer nanosecond counts (`Int`), with the Go
`time.Time` zero value at 0; durations are likewise `Int` nanoseconds, so
`t.Sub(u) = t - u` and `t.Add(d) = t + d`.
-/

namespace JujuState

/-! ## Skew (state/lease/skew.go) -/

/-- Skew holds information about a remote writer's idea of the current time
(`Skew` struct in state/lease/skew.go): the most recent remote write time,
bracketed by the local times just before and just after the remote clock was
read. -/
structure Skew where
  lastWrite : Int
  readAfter : Int
  readBefore : Int
deriving Repr, DecidableEq

/-- `Skew.isZero`: true when every field is the zero time, denoting a
perfectly unskewed (local) writer. -/
def Skew.isZero (skew : Skew) : Bool :=
  skew.lastWrite == 0 && skew.readAfter == 0 && skew.readBefore == 0

/-- `Skew.Earliest`: the earliest local time after which the remote writer
will agree `remote` is in the past. Fast path for the zero record; otherwise
`ReadAfter + (remote - LastWrite)`. -/
def Skew.Earliest (skew : Skew) (remote : Int) : Int :=
  if skew.isZero then remote
  else skew.readAfter + (remote - skew.lastWrite)

/-- `Skew.Latest`: the latest local time after which the remote writer will
agree `remote` is in the past. Fast path for the zero record; otherwise
`ReadBefore + (remote - LastWrite)`. -/
def Skew.Latest (skew : Skew) (remote : Int) : Int :=
  if skew.isZero then remote
  else skew.readBefore + (remote - skew.lastWrite)

/-- One second in nanoseconds (`time.Second`). -/
def second : Int := 1000000000

/-! ## Spaces (state/spaces.go)

The document store is modelled as three model-scoped collections:
spaces and subnets as association lists from document id to document, and
the provider-id index (`providerIDsC`) as a list of present keys. -/

/-- `Life` (state/life.go, used by the `life` field of `spaceDoc`):
Alive, Dying or Dead. -/
inductive Life where
  | Alive
  | Dying
  | Dead
deriving Repr, DecidableEq

/-- `spaceDoc`: the persistent document backing one network space. -/
structure SpaceDoc where
  docID : String
  modelUUID : String
  life : Life
  name : String
  isPublic : Bool
  providerId : String
deriving Repr, DecidableEq

/-- `subnetDoc` (the fields the space operations touch): the subnet's
document id and the `space-name` field AddSpace stamps. -/
structure SubnetDoc where
  docID : String
  spaceName : String
deriving Repr, DecidableEq

/-- The collections a space transaction touches: `spacesC`, `subnetsC` and
the provider-id index collection `providerIDsC`. -/
inductive Collection where
  | spacesC
  | subnetsC
  | providerIDsC
deriving Repr, DecidableEq

/-- The txn.Op assertions used by the space operations: `txn.DocMissing`,
`txn.DocExists`, `isAliveDoc`, `isDeadDoc`, or no assertion at all. -/
inductive Assertion where
  | docMissing
  | docExists
  | isAlive
  | isDead
  | noAssert
deriving Repr, DecidableEq

/-- The txn.Op mutations used by the space operations: inserting a space
document, inserting a provider-id index key, `$set`-ting a subnet's
`space-name`, `$set`-ting a space's `life` to Dead, and document removal. -/
inductive Mutation where
  | insertSpace (d : SpaceDoc)
  | insertProviderId
  | setSpaceName (name : String)
  | setLifeDead
  | removeDoc
deriving Repr, DecidableEq

/-- `txn.Op`: collection, document id, assertion, mutation. -/
structure Op where
  c : Collection
  id : String
  assert : Assertion
  mutation : Mutation
deriving Repr, DecidableEq

/-- The store state: the spaces and subnets collections as id-keyed
association lists, and the set of keys present in the provider-id index. -/
structure StoreState where
  modelUUID : String
  spaces : List (String × SpaceDoc)
  subnets : List (String × SubnetDoc)
  providerIds : List String
deriving Repr, DecidableEq

/-- First-match lookup by document id in an association-list collection. -/
def findId {α : Type} (coll : List (String × α)) (id : String) : Option α :=
  match coll.find? (fun p => p.1 == id) with
  | some p => some p.2
  | none => none

/-- `st.docID(name)`: the model-scoped document id, the model UUID joined to
the entity name. -/
def StoreState.docID (st : StoreState) (name : String) : String :=
  st.modelUUID ++ ":" ++ name

/-- Whether a document with the given id exists in the given collection. -/
def StoreState.docExistsIn (st : StoreState) (c : Collection) (id : String) : Bool :=
  match c with
  | .spacesC => (findId st.spaces id).isSome
  | .subnetsC => (findId st.subnets id).isSome
  | .providerIDsC => st.providerIds.contains id

/-- Server-side evaluation of one op's assertion against the store. -/
def assertHolds (st : StoreState) (op : Op) : Bool :=
  match op.assert with
  | .noAssert => true
  | .docMissing => !(st.docExistsIn op.c op.id)
  | .docExists => st.docExistsIn op.c op.id
  | .isAlive =>
      match findId st.spaces op.id with
      | some d => d.life == .Alive
      | none => false
  | .isDead =>
      match findId st.spaces op.id with
      | some d => d.life == .Dead
      | none => false

/-- The `$set {space-name: n}` update on a subnet document. -/
def setSubnetSpaceName (n : String) (d : SubnetDoc) : SubnetDoc :=
  { d with spaceName := n }

/-- The `$set {life: Dead}` update on a space document. -/
def setDocDead (d : SpaceDoc) : SpaceDoc :=
  { d with life := .Dead }

/-- Apply one op's mutation to the store (assertions already checked). -/
def applyOp (st : StoreState) (op : Op) : StoreState :=
  match op.mutation with
  | .insertSpace d => { st with spaces := (op.id, d) :: st.spaces }
  | .insertProviderId => { st with providerIds := op.id :: st.providerIds }
  | .setSpaceName n =>
      { st with subnets :=
          st.subnets.map (fun p => if p.1 == op.id then (p.1, setSubnetSpaceName n p.2) else p) }
  | .setLifeDead =>
      { st with spaces :=
          st.spaces.map (fun p => if p.1 == op.id then (p.1, setDocDead p.2) else p) }
  | .removeDoc =>
      match op.c with
      | .spacesC => { st with spaces := st.spaces.filter (fun p => p.1 != op.id) }
      | .subnetsC => { st with subnets := st.subnets.filter (fun p => p.1 != op.id) }
      | .providerIDsC => { st with providerIds := st.providerIds.filter (fun k => k != op.id) }

/-- `st.runTransaction(ops)`: conditional multi-op apply. If every
assertion holds against the current state, all mutations apply atomically
(`some` of the new state); otherwise the transaction aborts (`none`) and
nothing applies. -/
def runTransaction (st : StoreState) (ops : List Op) : Option StoreState :=
  if ops.all (assertHolds st) then some (ops.foldl applyOp st) else none

/-- The distinguished error outcomes of the space operations. `notAlive` is
`errNotAlive`, the life-conflict error; `notDead` is the "space is not dead"
local check in Remove; `notDeadOrNotFound` is Remove's abort error
"not found or not dead"; `providerIdNotUnique` is AddSpace's
"ProviderId %q not unique"; `abortedConflict` is the traced `txn.ErrAborted`
surfaced when no more specific classification applies. -/
inductive SpaceError where
  | notValid
  | alreadyExists
  | subnetNotFound (id : String)
  | providerIdNotUnique
  | abortedConflict
  | notAlive
  | notDead
  | notDeadOrNotFound
  | notFound
deriving Repr, DecidableEq

/-- A lowercase letter or a digit, the characters a space-name segment may
contain. -/
def isAlnumLower (c : Char) : Bool :=
  (97 ≤ c.toNat && c.toNat ≤ 122) || (48 ≤ c.toNat && c.toNat ≤ 57)

/-- Scanner for `([a-z0-9]+(-[a-z0-9]+)*)`: `seen` records whether the
current segment is nonempty; a hyphen closes a nonempty segment and opens a
new one that must again be nonempty. -/
def validSpaceAux : List Char → Bool → Bool
  | [], seen => seen
  | c :: rest, seen =>
      if c = '-' then seen && validSpaceAux rest false
      else isAlnumLower c && validSpaceAux rest true

/-- `names.IsValidSpace` (external juju/names library): the name matches
`^([a-z0-9]+(-[a-z0-9]+)*)$` — nonempty lowercase-alphanumeric segments
joined by single hyphens. -/
def IsValidSpace (name : String) : Bool :=
  validSpaceAux name.toList false

/-- `st.Space(name)`: look the space up by its model-scoped id; NotFound is
represented by `none`. -/
def StoreState.space (st : StoreState) (name : String) : Option SpaceDoc :=
  findId st.spaces (st.docID name)

/-- `st.Subnet(id)`: look the subnet up by its model-scoped id; NotFound is
represented by `none`. -/
def StoreState.subnet (st : StoreState) (id : String) : Option SubnetDoc :=
  findId st.subnets (st.docID id)

/-- `Space.Refresh`: unconditional re-read of the space's document by its
cached id; NotFound when the document is gone. -/
def refresh (st : StoreState) (s : SpaceDoc) : Except SpaceError SpaceDoc :=
  match findId st.spaces s.docID with
  | some d => .ok d
  | none => .error .notFound

/-- Modelled from the spec: `networkEntityGlobalKeyOp` (referenced by
AddSpace but not under src/) — the secondary-index insert for a provider id,
asserting the index key absent, per the spec's "asserts target id absent;
atomically performs any associated secondary-index updates ... in the same
transaction as the insert" and the abort classifier's
"ProviderId %q not unique" diagnosis. -/
def networkEntityGlobalKeyOp (globalKey providerId : String) : Op :=
  ⟨.providerIDsC, globalKey ++ ":" ++ providerId, .docMissing, .insertProviderId⟩

/-- Modelled from the spec: `networkEntityGlobalKeyRemoveOp` (referenced by
Remove but not under src/) — unconditional removal of the denormalized
secondary-index entry, per the spec's "also removes denormalized
secondary-index entries tied to this identity". -/
def networkEntityGlobalKeyRemoveOp (globalKey providerId : String) : Op :=
  ⟨.providerIDsC, globalKey ++ ":" ++ providerId, .noAssert, .removeDoc⟩

/-- The space document AddSpace builds for a new space: fresh id, Alive. -/
def addSpaceDoc (st : StoreState) (name providerId : String) (isPublic : Bool) : SpaceDoc :=
  { docID := st.docID name
    modelUUID := st.modelUUID
    life := .Alive
    name := name
    isPublic := isPublic
    providerId := providerId }

/-- The op sequence AddSpace submits in one transaction: the space insert
asserting the target id missing; the provider-id index insert when a
provider id is set; and, for every listed subnet, an op asserting the subnet
document exists and `$set`-ting its `space-name` to the new space's name. -/
def addSpaceOps (st : StoreState) (name providerId : String)
    (subnets : List String) (isPublic : Bool) : List Op :=
  (⟨.spacesC, st.docID name, .docMissing,
      .insertSpace (addSpaceDoc st name providerId isPublic)⟩ ::
    (if providerId != "" then [networkEntityGlobalKeyOp "space" providerId] else []))
  ++ subnets.map (fun subnetId =>
      ⟨.subnetsC, st.docID subnetId, .docExists, .setSpaceName name⟩)

/-- AddSpace's abort classifier (state/spaces.go lines 119-134), applied to
the state observed by the post-abort re-reads: first re-fetch the space by
name and report AlreadyExists if it now exists; then re-check each listed
subnet and report the first missing one; then re-fetch the freshly-built
space document by id — missing means the provider-id uniqueness assert was
the culprit ("ProviderId not unique"), and otherwise the traced abort error
is surfaced. -/
def addSpaceClassifyAbort (post : StoreState) (name : String)
    (subnets : List String) (newDoc : SpaceDoc) : SpaceError :=
  match post.space name with
  | some _ => .alreadyExists
  | none =>
    match subnets.find? (fun subnetId => (post.subnet subnetId).isNone) with
    | some subnetId => .subnetNotFound subnetId
    | none =>
      match findId post.spaces newDoc.docID with
      | none => .providerIdNotUnique
      | some _ => .abortedConflict

/-- `State.AddSpace(name, providerId, subnets, isPublic)`: validate the
name, build the single transaction of `addSpaceOps`, run it, and on abort
classify the failure with `addSpaceClassifyAbort`. On success returns the
new store state and the new Space handle's cached document. -/
def addSpace (st : StoreState) (name providerId : String)
    (subnets : List String) (isPublic : Bool) :
    Except SpaceError (StoreState × SpaceDoc) :=
  if !IsValidSpace name then .error .notValid
  else
    let doc := addSpaceDoc st name providerId isPublic
    match runTransaction st (addSpaceOps st name providerId subnets isPublic) with
    | some st2 => .ok (st2, doc)
    | none => .error (addSpaceClassifyAbort st name subnets doc)

/-- The single op EnsureDead submits: assert `isAliveDoc`, `$set` life to
Dead. -/
def ensureDeadOps (s : SpaceDoc) : List Op :=
  [⟨.spacesC, s.docID, .isAlive, .setLifeDead⟩]

/-- `Space.EnsureDead`: no-op success when the handle's cached life is
already Dead; otherwise run the assert-Alive/set-Dead transaction, updating
the cached document on success, and map an abort to `errNotAlive`
(`onAbort`). Returns the store and the handle's cached document. -/
def ensureDead (st : StoreState) (s : SpaceDoc) :
    Except SpaceError (StoreState × SpaceDoc) :=
  if s.life = .Dead then .ok (st, s)
  else
    match runTransaction st (ensureDeadOps s) with
    | some st2 => .ok (st2, { s with life := .Dead })
    | none => .error .notAlive

/-- The op sequence Remove submits: remove the space document asserting
`isDeadDoc`, plus the provider-id index entry removal when the handle's
provider id is set. -/
def removeOps (s : SpaceDoc) : List Op :=
  ⟨.spacesC, s.docID, .isDead, .removeDoc⟩ ::
    (if s.providerId != "" then [networkEntityGlobalKeyRemoveOp "space" s.providerId] else [])

/-- `Space.Remove`: fail "space is not dead" when the handle's cached life
is not Dead; otherwise run the remove transaction and map an abort to
"not found or not dead" (`onAbort`). -/
def remove (st : StoreState) (s : SpaceDoc) : Except SpaceError StoreState :=
  if s.life ≠ .Dead then .error .notDead
  else
    match runTransaction st (removeOps s) with
    | some st2 => .ok st2
    | none => .error .notDeadOrNotFound

/-- One observable step of the space lifecycle: a successful addSpace,
ensureDead or remove applied to the store (failed operations leave the store
untouched, so successful applications are the only store transitions). -/
inductive SpacesStep : StoreState → StoreState → Prop where
  | addSpace (st st2 : StoreState) (name providerId : String)
      (subnets : List String) (isPublic : Bool) (doc : SpaceDoc)
      (h : addSpace st name providerId subnets isPublic = .ok (st2, doc)) :
      SpacesStep st st2
  | ensureDead (st st2 : StoreState) (s s2 : SpaceDoc)
      (h : ensureDead st s = .ok (st2, s2)) :
      SpacesStep st st2
  | remove (st st2 : StoreState) (s : SpaceDoc)
      (h : remove st s = .ok st2) :
      SpacesStep st st2

/-- Reachability: a finite sequence of successful space operations. -/
inductive Reach : StoreState → StoreState → Prop where
  | refl (st : StoreState) : Reach st st
  | step (st st2 st3 : StoreState) (h : Reach st st2) (hs : SpacesStep st2 st3) :
      Reach st st3

/-! ## Helper lemmas -/

theorem Skew.Earliest_eq (s : Skew) (r : Int) :
    s.Earliest r = s.readAfter + (r - s.lastWrite) := by
  unfold Skew.Earliest
  split
  · next h =>
      unfold Skew.isZero at h
      simp only [Bool.and_eq_true, beq_iff_eq] at h
      omega
  · rfl

theorem Skew.Latest_eq (s : Skew) (r : Int) :
    s.Latest r = s.readBefore + (r - s.lastWrite) := by
  unfold Skew.Latest
  split
  · next h =>
      unfold Skew.isZero at h
      simp only [Bool.and_eq_true, beq_iff_eq] at h
      omega
  · rfl

theorem findId_cons {α : Type} (k : String) (v : α) (l : List (String × α))
    (id : String) :
    findId ((k, v) :: l) id = if k == id then some v else findId l id := by
  by_cases h : k == id
  · simp [findId, List.find?, h]
  · simp only [Bool.not_eq_true] at h
    simp [findId, List.find?, h]

theorem findId_map_update {α : Type} (l : List (String × α)) (k id : String)
    (g : α → α) :
    findId (l.map (fun p => if p.1 == k then (p.1, g p.2) else p)) id =
      match findId l id with
      | some v => some (if k == id then g v else v)
      | none => none := by
  induction l with
  | nil => simp [findId]
  | cons hd tl ih =>
      obtain ⟨a, b⟩ := hd
      by_cases hak : a = k
      · subst hak
        by_cases hai : a = id
        · subst hai
          simp [findId_cons, List.map_cons, findId]
        · simp only [List.map_cons, beq_self_eq_true, if_true]
          rw [findId_cons, findId_cons]
          have : (a == id) = false := by simp [hai]
          simp only [this, if_neg, Bool.false_eq_true, if_false, ih]
      · have hk : (a == k) = false := by simp [hak]
        simp only [List.map_cons, hk, Bool.false_eq_true, if_false]
        rw [findId_cons, findId_cons]
        by_cases hai : a = id
        · subst hai
          have hki : (k == a) = false := by simp [Ne.symm hak]
          simp [hki]
        · have : (a == id) = false := by simp [hai]
          simp only [this, Bool.false_eq_true, if_false, ih]

theorem findId_filter_ne {α : Type} (l : List (String × α)) (k id : String) :
    findId (l.filter (fun p => p.1 != k)) id =
      if k == id then none else findId l id := by
  induction l with
  | nil => simp [findId]
  | cons hd tl ih =>
      obtain ⟨a, b⟩ := hd
      by_cases hak : a = k
      · subst hak
        simp only [List.filter_cons, bne_self_eq_false, Bool.false_eq_true, if_false]
        rw [ih]
        by_cases hai : a = id
        · subst hai; simp
        · have h1 : (a == id) = false := by simp [hai]
          simp [h1, findId_cons]
      · have h1 : (a != k) = true := by simp [hak]
        simp only [List.filter_cons, h1, if_true]
        rw [findId_cons, findId_cons, ih]
        by_cases hai : a = id
        · subst hai
          have h2 : (k == a) = false := by simp [Ne.symm hak]
          simp [h2]
        · have h2 : (a == id) = false := by simp [hai]
          simp [h2]

theorem contains_filter_ne (l : List String) (k : String) :
    (l.filter (fun x => x != k)).contains k = false := by
  induction l with
  | nil => simp
  | cons hd tl ih =>
      by_cases h : hd = k
      · subst h
        rw [List.filter_cons]
        simp only [bne_self_eq_false, Bool.false_eq_true, if_false]
        exact ih
      · have h1 : (hd != k) = true := by simp [h]
        have h2 : (k == hd) = false := by simp [Ne.symm h]
        simp [List.filter_cons, h1, List.contains_cons, h2, ih, Ne.symm h]

/-- Ops whose mutations touch only the subnets collection or the provider-id
index leave the spaces collection unchanged. -/
theorem foldl_applyOp_spaces (l : List Op) (st : StoreState)
    (h : ∀ op ∈ l, (∃ n, op.mutation = .setSpaceName n) ∨
      op.mutation = .insertProviderId) :
    (l.foldl applyOp st).spaces = st.spaces := by
  induction l generalizing st with
  | nil => rfl
  | cons hd tl ih =>
      have hhd := h hd (List.mem_cons_self hd tl)
      have htl : ∀ op ∈ tl, (∃ n, op.mutation = .setSpaceName n) ∨
          op.mutation = .insertProviderId :=
        fun op hop => h op (List.mem_cons_of_mem hd hop)
      rw [List.foldl_cons, ih (applyOp st hd) htl]
      rcases hhd with ⟨n, hn⟩ | hn <;> simp [applyOp, hn]

theorem runTransaction_ok (st st2 : StoreState) (ops : List Op)
    (h : runTransaction st ops = some st2) :
    ops.all (assertHolds st) = true ∧ st2 = ops.foldl applyOp st := by
  unfold runTransaction at h
  split at h
  · exact ⟨by assumption, (Option.some.inj h).symm⟩
  · exact absurd h (by simp)

/-- Every op AddSpace appends after the space insert touches only the
provider-id index or a subnet's space-name. -/
theorem addSpaceOps_tail_shape (st : StoreState) (name providerId : String)
    (subnets : List String) (op : Op)
    (hmem : op ∈ (if providerId != "" then [networkEntityGlobalKeyOp "space" providerId] else []) ++
      subnets.map (fun subnetId =>
        (⟨.subnetsC, st.docID subnetId, .docExists, .setSpaceName name⟩ : Op))) :
    (∃ n, op.mutation = .setSpaceName n) ∨ op.mutation = .insertProviderId := by
  rcases List.mem_append.mp hmem with hpid | hsub
  · right
    split at hpid
    · rcases List.mem_singleton.mp hpid with rfl
      rfl
    · cases hpid
  · left
    obtain ⟨subnetId, _, rfl⟩ := List.mem_map.mp hsub
    exact ⟨name, rfl⟩

/-- What a successful AddSpace did: the returned document is the freshly
built one, the target id was absent, and the new state's spaces collection
is the old one with the new document prepended. -/
theorem addSpace_ok_elim (st st2 : StoreState) (name providerId : String)
    (subnets : List String) (isPublic : Bool) (doc : SpaceDoc)
    (h : addSpace st name providerId subnets isPublic = .ok (st2, doc)) :
    doc = addSpaceDoc st name providerId isPublic ∧
    findId st.spaces (st.docID name) = none ∧
    st2.spaces = (st.docID name, doc) :: st.spaces := by
  unfold addSpace at h
  by_cases hv : IsValidSpace name
  · simp only [hv, Bool.not_true, Bool.false_eq_true, if_false] at h
    cases hrt : runTransaction st (addSpaceOps st name providerId subnets isPublic) with
    | none => rw [hrt] at h; cases h
    | some stx =>
        rw [hrt] at h
        have hpair : stx = st2 ∧ addSpaceDoc st name providerId isPublic = doc := by
          cases h; exact ⟨rfl, rfl⟩
        obtain ⟨rfl, rfl⟩ := hpair
        obtain ⟨hall, hfold⟩ := runTransaction_ok st _ _ hrt
        have hops : addSpaceOps st name providerId subnets isPublic =
            (⟨.spacesC, st.docID name, .docMissing,
                .insertSpace (addSpaceDoc st name providerId isPublic)⟩ : Op) ::
              ((if providerId != "" then [networkEntityGlobalKeyOp "space" providerId] else []) ++
                subnets.map (fun subnetId =>
                  (⟨.subnetsC, st.docID subnetId, .docExists, .setSpaceName name⟩ : Op))) := by
          unfold addSpaceOps
          rw [List.cons_append]
        have hfirst : assertHolds st
            (⟨.spacesC, st.docID name, .docMissing,
              .insertSpace (addSpaceDoc st name providerId isPublic)⟩ : Op) = true := by
          have := List.all_eq_true.mp hall
          exact this _ (by rw [hops]; exact List.mem_cons_self _ _)
        have hfresh : findId st.spaces (st.docID name) = none := by
          simp only [assertHolds, StoreState.docExistsIn, Bool.not_eq_true'] at hfirst
          exact Option.not_isSome_iff_eq_none.mp (by simp [hfirst])
        refine ⟨rfl, hfresh, ?_⟩
        rw [hfold, hops, List.foldl_cons]
        rw [foldl_applyOp_spaces _ _ (fun op hop =>
          addSpaceOps_tail_shape st name providerId subnets op hop)]
        rfl
  · simp only [hv, Bool.not_false, if_true] at h
    cases h

/-- What a successful EnsureDead did: the handle's cached document now
reports Dead, and the store is either untouched (the already-Dead no-op) or
has the space's life set to Dead in place. -/
theorem ensureDead_ok_elim (st st2 : StoreState) (s s2 : SpaceDoc)
    (h : ensureDead st s = .ok (st2, s2)) :
    s2.life = .Dead ∧
    (st2 = st ∧ s2 = s ∨
      st2.spaces = st.spaces.map
        (fun p => if p.1 == s.docID then (p.1, setDocDead p.2) else p) ∧
        s2 = { s with life := .Dead }) := by
  unfold ensureDead at h
  by_cases hd : s.life = .Dead
  · simp only [hd, if_true] at h
    have hpair : st = st2 ∧ s = s2 := by cases h; exact ⟨rfl, rfl⟩
    obtain ⟨rfl, rfl⟩ := hpair
    exact ⟨hd, Or.inl ⟨rfl, rfl⟩⟩
  · simp only [hd, if_false] at h
    cases hrt : runTransaction st (ensureDeadOps s) with
    | none => rw [hrt] at h; cases h
    | some stx =>
        rw [hrt] at h
        have hpair : stx = st2 ∧ { s with life := Life.Dead } = s2 := by
          cases h; exact ⟨rfl, rfl⟩
        obtain ⟨rfl, rfl⟩ := hpair
        obtain ⟨_, hfold⟩ := runTransaction_ok st _ _ hrt
        refine ⟨rfl, Or.inr ⟨?_, rfl⟩⟩
        rw [hfold]
        rfl

/-- What a successful Remove did: the space's document is filtered out of
the spaces collection, and when the handle carries a provider id its index
key is filtered out of the provider-id index. -/
theorem remove_ok_elim (st st2 : StoreState) (s : SpaceDoc)
    (h : remove st s = .ok st2) :
    st2.spaces = st.spaces.filter (fun p => p.1 != s.docID) ∧
    st2.providerIds = (if s.providerId != "" then
        st.providerIds.filter (fun k => k != ("space:" ++ s.providerId))
      else st.providerIds) := by
  unfold remove at h
  by_cases hd : s.life = .Dead
  · simp only [hd, ne_eq, not_true_eq_false, if_false] at h
    cases hrt : runTransaction st (removeOps s) with
    | none => rw [hrt] at h; cases h
    | some stx =>
        rw [hrt] at h
        have hst : stx = st2 := by cases h; rfl
        subst hst
        obtain ⟨_, hfold⟩ := runTransaction_ok st stx _ hrt
        subst hfold
        unfold removeOps networkEntityGlobalKeyRemoveOp
        by_cases hpid : s.providerId = ""
        · simp [hpid, applyOp]
        · have hpid2 : (s.providerId != "") = true := by simp [hpid]
          simp [hpid2, applyOp]
  · simp only [hd, ne_eq, not_false_eq_true, if_true] at h
    cases h

/-! ## Claims -/

/-- C2: for every skew record and every remote timestamp,
Earliest(remote) = ReadAfter + (remote − LastWrite) and
Latest(remote) = ReadBefore + (remote − LastWrite); for LastWrite = T0,
ReadAfter = T0 − 1s, ReadBefore = T0 + 1s and remote = T0 + 10s the results
are T0 + 9s and T0 + 11s; and the all-zero record returns remote unchanged
from both functions. -/
theorem C2_skew_arithmetic (s : Skew) (remote T0 : Int) :
    s.Earliest remote = s.readAfter + (remote - s.lastWrite) ∧
    s.Latest remote = s.readBefore + (remote - s.lastWrite) ∧
    (Skew.mk T0 (T0 - second) (T0 + second)).Earliest (T0 + 10 * second) =
      T0 + 9 * second ∧
    (Skew.mk T0 (T0 - second) (T0 + second)).Latest (T0 + 10 * second) =
      T0 + 11 * second ∧
    (Skew.mk 0 0 0).Earliest remote = remote ∧
    (Skew.mk 0 0 0).Latest remote = remote := by
  refine ⟨Skew.Earliest_eq s remote, Skew.Latest_eq s remote, ?_, ?_, ?_, ?_⟩
  · rw [Skew.Earliest_eq]
    show (T0 - second) + ((T0 + 10 * second) - T0) = T0 + 9 * second
    ring
  · rw [Skew.Latest_eq]
    show (T0 + second) + ((T0 + 10 * second) - T0) = T0 + 11 * second
    ring
  · rw [Skew.Earliest_eq]
    show (0 : Int) + (remote - 0) = remote
    ring
  · rw [Skew.Latest_eq]
    show (0 : Int) + (remote - 0) = remote
    ring

/-- C7: on the same skew record, both Earliest and Latest are strictly
monotone in the remote argument. -/
theorem C7_skew_monotonicity (s : Skew) (r1 r2 : Int) (h : r1 < r2) :
    s.Earliest r1 < s.Earliest r2 ∧ s.Latest r1 < s.Latest r2 := by
  rw [Skew.Earliest_eq, Skew.Earliest_eq, Skew.Latest_eq, Skew.Latest_eq]
  omega

theorem C7_skew_monotonicity_witness :
    (5 : Int) < 7 ∧
    ((Skew.mk 100 99 101).Earliest 5 < (Skew.mk 100 99 101).Earliest 7 ∧
      (Skew.mk 100 99 101).Latest 5 < (Skew.mk 100 99 101).Latest 7) :=
  ⟨by decide, C7_skew_monotonicity ⟨100, 99, 101⟩ 5 7 (by decide)⟩

/-- C8: Earliest and Latest are total — they are defined by the same closed
formula for every record and every remote timestamp, and a remote earlier
than LastWrite (negative delta) is legal input that simply lands the bounds
before ReadAfter/ReadBefore, never an error. -/
theorem C8_skew_total_negative_delta (s : Skew) (remote : Int)
    (h : remote < s.lastWrite) :
    s.Earliest remote = s.readAfter + (remote - s.lastWrite) ∧
    s.Latest remote = s.readBefore + (remote - s.lastWrite) ∧
    s.Earliest remote < s.readAfter ∧ s.Latest remote < s.readBefore := by
  rw [Skew.Earliest_eq, Skew.Latest_eq]
  omega

theorem C8_skew_total_negative_delta_witness :
    (50 : Int) < (Skew.mk 100 99 101).lastWrite ∧
    ((Skew.mk 100 99 101).Earliest 50 =
        (Skew.mk 100 99 101).readAfter + (50 - (Skew.mk 100 99 101).lastWrite) ∧
      (Skew.mk 100 99 101).Latest 50 =
        (Skew.mk 100 99 101).readBefore + (50 - (Skew.mk 100 99 101).lastWrite) ∧
      (Skew.mk 100 99 101).Earliest 50 < (Skew.mk 100 99 101).readAfter ∧
      (Skew.mk 100 99 101).Latest 50 < (Skew.mk 100 99 101).readBefore) :=
  ⟨by decide, C8_skew_total_negative_delta ⟨100, 99, 101⟩ 50 (by decide)⟩

/-- C10: an invalid space name makes AddSpace fail NotValid immediately; the
result is the same for every store state, so no store state is read or
mutated. -/
theorem C10_invalid_name_not_valid (st : StoreState) (name providerId : String)
    (subnets : List String) (isPublic : Bool) (h : IsValidSpace name = false) :
    addSpace st name providerId subnets isPublic = .error .notValid := by
  unfold addSpace
  simp [h]

theorem C10_invalid_name_not_valid_witness :
    IsValidSpace "Bad Name" = false ∧
    addSpace ⟨"u", [], [], []⟩ "Bad Name" "p" ["s1"] true = .error .notValid :=
  ⟨by decide, C10_invalid_name_not_valid ⟨"u", [], [], []⟩ "Bad Name" "p" ["s1"] true
    (by decide)⟩

/-- C1: when an aborted create finds the target space concurrently created
AND a referenced subnet missing, the abort classifier reports AlreadyExists,
not the missing-subnet error: the existence re-fetch comes first, and the
whole AddSpace call surfaces AlreadyExists. -/
theorem C1_duplicate_race_beats_missing_subnet (post : StoreState)
    (name providerId : String) (subnets : List String) (isPublic : Bool)
    (newDoc d : SpaceDoc) (hexists : post.space name = some d)
    (sub : String) (hmem : sub ∈ subnets) (hmiss : post.subnet sub = none) :
    addSpaceClassifyAbort post name subnets newDoc = .alreadyExists ∧
    (IsValidSpace name = true →
      addSpace post name providerId subnets isPublic = .error .alreadyExists) := by
  have hclass : ∀ doc2 : SpaceDoc,
      addSpaceClassifyAbort post name subnets doc2 = .alreadyExists := by
    intro doc2
    unfold addSpaceClassifyAbort
    rw [hexists]
  refine ⟨hclass newDoc, fun hv => ?_⟩
  unfold addSpace
  simp only [hv, Bool.not_true, Bool.false_eq_true, if_false]
  have hfirst : assertHolds post (⟨.spacesC, post.docID name, .docMissing,
      .insertSpace (addSpaceDoc post name providerId isPublic)⟩ : Op) = false := by
    unfold StoreState.space at hexists
    simp only [assertHolds, StoreState.docExistsIn]
    simp [hexists]
  have hall : (addSpaceOps post name providerId subnets isPublic).all
      (assertHolds post) = false := by
    unfold addSpaceOps
    rw [List.cons_append, List.all_cons, hfirst]
    rfl
  have hrt : runTransaction post (addSpaceOps post name providerId subnets isPublic) =
      none := by
    unfold runTransaction
    simp [hall]
  rw [hrt, hclass (addSpaceDoc post name providerId isPublic)]

theorem C1_duplicate_race_beats_missing_subnet_witness :
    (⟨"u", [("u:sp", ⟨"u:sp", "u", .Alive, "sp", false, ""⟩)], [], []⟩ :
        StoreState).space "sp" = some ⟨"u:sp", "u", .Alive, "sp", false, ""⟩ ∧
    "missing" ∈ ["missing"] ∧
    (⟨"u", [("u:sp", ⟨"u:sp", "u", .Alive, "sp", false, ""⟩)], [], []⟩ :
        StoreState).subnet "missing" = none ∧
    (addSpaceClassifyAbort
        ⟨"u", [("u:sp", ⟨"u:sp", "u", .Alive, "sp", false, ""⟩)], [], []⟩
        "sp" ["missing"] ⟨"u:sp", "u", .Alive, "sp", false, ""⟩ = .alreadyExists ∧
      (IsValidSpace "sp" = true →
        addSpace ⟨"u", [("u:sp", ⟨"u:sp", "u", .Alive, "sp", false, ""⟩)], [], []⟩
          "sp" "" ["missing"] false = .error .alreadyExists)) :=
  ⟨by decide, List.mem_singleton.mpr rfl, by decide,
    C1_duplicate_race_beats_missing_subnet
      ⟨"u", [("u:sp", ⟨"u:sp", "u", .Alive, "sp", false, ""⟩)], [], []⟩
      "sp" "" ["missing"] false ⟨"u:sp", "u", .Alive, "sp", false, ""⟩
      ⟨"u:sp", "u", .Alive, "sp", false, ""⟩ (by decide)
      "missing" (List.mem_singleton.mpr rfl) (by decide)⟩

/-- C9 counterexample: a concrete aborted create where the space is absent,
no subnet is missing, and the re-fetch of the entity under mutation reports
it missing — AddSpace reports "ProviderId not unique", which is not the
life-conflict error (`errNotAlive`). The store holds the provider-id index
key `space:pid` already, so only the index-uniqueness assert failed. -/
theorem C9_refetch_missing_counterexample :
    addSpaceClassifyAbort ⟨"u", [], [], ["space:pid"]⟩ "sp" []
        (addSpaceDoc ⟨"u", [], [], ["space:pid"]⟩ "sp" "pid" false) =
      .providerIdNotUnique ∧
    addSpace ⟨"u", [], [], ["space:pid"]⟩ "sp" "pid" [] false =
      .error .providerIdNotUnique ∧
    SpaceError.providerIdNotUnique ≠ SpaceError.notAlive := by
  refine ⟨by decide, by rfl, by decide⟩

/-- C9 amended: in AddSpace's abort classification, after the AlreadyExists
and missing-subnet checks both pass, the engine re-fetches the entity under
mutation; if that re-fetch reports the entity missing it reports a
ProviderId-not-unique error (the provider-id index insert being the only
remaining failable assertion), and otherwise it surfaces the underlying
abort error as the conflict result. -/
theorem C9_refetch_missing_amended (post : StoreState) (name : String)
    (subnets : List String) (newDoc : SpaceDoc)
    (hnospace : post.space name = none)
    (hsubs : ∀ sub ∈ subnets, (post.subnet sub).isSome = true) :
    (findId post.spaces newDoc.docID = none →
      addSpaceClassifyAbort post name subnets newDoc = .providerIdNotUnique) ∧
    (∀ d, findId post.spaces newDoc.docID = some d →
      addSpaceClassifyAbort post name subnets newDoc = .abortedConflict) := by
  have hfind : subnets.find? (fun subnetId => (post.subnet subnetId).isNone) = none := by
    rw [List.find?_eq_none]
    intro sub hmem hbad
    have h1 := hsubs sub hmem
    rw [Option.isNone_iff_eq_none] at hbad
    rw [hbad] at h1
    cases h1
  constructor
  · intro hmiss
    simp only [addSpaceClassifyAbort, hnospace, hfind, hmiss]
  · intro d hd
    simp only [addSpaceClassifyAbort, hnospace, hfind, hd]

theorem C9_refetch_missing_amended_witness :
    (⟨"u", [], [("u:s1", ⟨"u:s1", ""⟩)], ["space:pid"]⟩ :
        StoreState).space "sp" = none ∧
    ((⟨"u", [], [("u:s1", ⟨"u:s1", ""⟩)], ["space:pid"]⟩ :
        StoreState).subnet "s1").isSome = true ∧
    findId (⟨"u", [], [("u:s1", ⟨"u:s1", ""⟩)], ["space:pid"]⟩ :
        StoreState).spaces "u:sp" = none ∧
    addSpaceClassifyAbort ⟨"u", [], [("u:s1", ⟨"u:s1", ""⟩)], ["space:pid"]⟩
        "sp" ["s1"] ⟨"u:sp", "u", .Alive, "sp", false, "pid"⟩ =
      .providerIdNotUnique :=
  ⟨by decide, by decide, by decide,
    (C9_refetch_missing_amended ⟨"u", [], [("u:s1", ⟨"u:s1", ""⟩)], ["space:pid"]⟩
      "sp" ["s1"] ⟨"u:sp", "u", .Alive, "sp", false, "pid"⟩
      (by decide) (by decide)).1 (by decide)⟩

/-- C3: with a valid name, the target id absent, every listed subnet
present, and a fresh provider-id index key when a provider id is set,
AddSpace succeeds, an immediate Refresh of the new handle returns its
document with life Alive, and the single submitted transaction opens with
the document-missing-asserted insert and carries, for every listed subnet,
an op asserting that subnet exists and stamping it with the space name. -/
theorem C3_create_fresh_succeeds (st : StoreState) (name providerId : String)
    (subnets : List String) (isPublic : Bool)
    (hvalid : IsValidSpace name = true)
    (hfresh : findId st.spaces (st.docID name) = none)
    (hsubs : ∀ sub ∈ subnets, (findId st.subnets (st.docID sub)).isSome = true)
    (hpid : providerId ≠ "" →
      st.providerIds.contains ("space:" ++ providerId) = false) :
    (∃ st2, addSpace st name providerId subnets isPublic =
        .ok (st2, addSpaceDoc st name providerId isPublic) ∧
      refresh st2 (addSpaceDoc st name providerId isPublic) =
        .ok (addSpaceDoc st name providerId isPublic)) ∧
    (addSpaceDoc st name providerId isPublic).life = .Alive ∧
    (addSpaceOps st name providerId subnets isPublic).head? =
      some ⟨.spacesC, st.docID name, .docMissing,
        .insertSpace (addSpaceDoc st name providerId isPublic)⟩ ∧
    (∀ sub ∈ subnets,
      (⟨.subnetsC, st.docID sub, .docExists, .setSpaceName name⟩ : Op) ∈
        addSpaceOps st name providerId subnets isPublic) := by
  have hall : (addSpaceOps st name providerId subnets isPublic).all
      (assertHolds st) = true := by
    rw [List.all_eq_true]
    intro op hop
    unfold addSpaceOps at hop
    rw [List.cons_append, List.mem_cons] at hop
    rcases hop with rfl | hop
    · simp only [assertHolds, StoreState.docExistsIn]
      simp [hfresh]
    · rcases List.mem_append.mp hop with hpidop | hsubop
      · by_cases hne : providerId = ""
        · rw [if_neg (by simp [hne])] at hpidop
          cases hpidop
        · rw [if_pos (by simp [hne])] at hpidop
          rcases List.mem_singleton.mp hpidop with rfl
          unfold networkEntityGlobalKeyOp
          simp only [assertHolds, StoreState.docExistsIn]
          simpa using hpid hne
      · obtain ⟨sub, hmem, rfl⟩ := List.mem_map.mp hsubop
        simp only [assertHolds, StoreState.docExistsIn]
        exact hsubs sub hmem
  have hrt : runTransaction st (addSpaceOps st name providerId subnets isPublic) =
      some ((addSpaceOps st name providerId subnets isPublic).foldl applyOp st) := by
    unfold runTransaction
    rw [hall]
    rfl
  have hadd : addSpace st name providerId subnets isPublic =
      .ok ((addSpaceOps st name providerId subnets isPublic).foldl applyOp st,
        addSpaceDoc st name providerId isPublic) := by
    unfold addSpace
    simp only [hvalid, Bool.not_true, Bool.false_eq_true, if_false]
    rw [hrt]
  refine ⟨⟨_, hadd, ?_⟩, rfl, ?_, ?_⟩
  · obtain ⟨-, -, hspaces⟩ :=
      addSpace_ok_elim st _ name providerId subnets isPublic _ hadd
    unfold refresh
    rw [show (addSpaceDoc st name providerId isPublic).docID = st.docID name from rfl]
    rw [hspaces, findId_cons]
    simp
  · unfold addSpaceOps
    rw [List.cons_append]
    rfl
  · intro sub hmem
    unfold addSpaceOps
    exact List.mem_append_right _ (List.mem_map.mpr ⟨sub, hmem, rfl⟩)

theorem C3_create_fresh_succeeds_witness :
    IsValidSpace "sp" = true ∧
    findId (⟨"u", [], [("u:s1", ⟨"u:s1", ""⟩)], []⟩ : StoreState).spaces
      ((⟨"u", [], [("u:s1", ⟨"u:s1", ""⟩)], []⟩ : StoreState).docID "sp") = none ∧
    ((∃ st2, addSpace ⟨"u", [], [("u:s1", ⟨"u:s1", ""⟩)], []⟩ "sp" "pid" ["s1"] true =
        .ok (st2, addSpaceDoc ⟨"u", [], [("u:s1", ⟨"u:s1", ""⟩)], []⟩ "sp" "pid" true) ∧
      refresh st2 (addSpaceDoc ⟨"u", [], [("u:s1", ⟨"u:s1", ""⟩)], []⟩ "sp" "pid" true) =
        .ok (addSpaceDoc ⟨"u", [], [("u:s1", ⟨"u:s1", ""⟩)], []⟩ "sp" "pid" true)) ∧
    (addSpaceDoc ⟨"u", [], [("u:s1", ⟨"u:s1", ""⟩)], []⟩ "sp" "pid" true).life = .Alive ∧
    (addSpaceOps ⟨"u", [], [("u:s1", ⟨"u:s1", ""⟩)], []⟩ "sp" "pid" ["s1"] true).head? =
      some ⟨.spacesC, (⟨"u", [], [("u:s1", ⟨"u:s1", ""⟩)], []⟩ : StoreState).docID "sp",
        .docMissing,
        .insertSpace (addSpaceDoc ⟨"u", [], [("u:s1", ⟨"u:s1", ""⟩)], []⟩ "sp" "pid" true)⟩ ∧
    (∀ sub ∈ ["s1"],
      (⟨.subnetsC, (⟨"u", [], [("u:s1", ⟨"u:s1", ""⟩)], []⟩ : StoreState).docID sub,
          .docExists, .setSpaceName "sp"⟩ : Op) ∈
        addSpaceOps ⟨"u", [], [("u:s1", ⟨"u:s1", ""⟩)], []⟩ "sp" "pid" ["s1"] true)) :=
  ⟨by decide, by decide,
    C3_create_fresh_succeeds ⟨"u", [], [("u:s1", ⟨"u:s1", ""⟩)], []⟩ "sp" "pid" ["s1"] true
      (by decide) (by decide) (by decide) (fun h => by decide)⟩

/-- C4: EnsureDead's single op asserts the life is Alive before writing
Dead; a handle already at Dead succeeds as a no-op leaving store and handle
unchanged (so repeated calls with no intervening change succeed and change
nothing); and when the handle is not yet at Dead but the stored life is no
longer Alive — or the document is gone — it fails with `errNotAlive`. -/
theorem C4_ensure_dead (st : StoreState) (s : SpaceDoc) :
    ensureDeadOps s = [⟨.spacesC, s.docID, .isAlive, .setLifeDead⟩] ∧
    (s.life = .Dead → ensureDead st s = .ok (st, s)) ∧
    (∀ st2 s2, ensureDead st s = .ok (st2, s2) → ensureDead st2 s2 = .ok (st2, s2)) ∧
    (s.life ≠ .Dead →
      (∀ d, findId st.spaces s.docID = some d → d.life ≠ .Alive) →
      ensureDead st s = .error .notAlive) := by
  refine ⟨rfl, ?_, ?_, ?_⟩
  · intro hd
    unfold ensureDead
    rw [if_pos hd]
  · intro st2 s2 h
    obtain ⟨hdead, -⟩ := ensureDead_ok_elim st st2 s s2 h
    unfold ensureDead
    rw [if_pos hdead]
  · intro hnd hstored
    unfold ensureDead
    rw [if_neg hnd]
    have hassert : assertHolds st
        (⟨.spacesC, s.docID, .isAlive, .setLifeDead⟩ : Op) = false := by
      simp only [assertHolds]
      cases hsd : findId st.spaces s.docID with
      | none => simp [hsd]
      | some d => simp [hsd, hstored d hsd]
    have hrt : runTransaction st (ensureDeadOps s) = none := by
      unfold runTransaction ensureDeadOps
      simp [hassert]
    rw [hrt]

theorem C4_ensure_dead_witness :
    ((⟨"u:sp", "u", .Dead, "sp", false, ""⟩ : SpaceDoc).life = .Dead ∧
      ensureDead ⟨"u", [("u:sp", ⟨"u:sp", "u", .Dead, "sp", false, ""⟩)], [], []⟩
          ⟨"u:sp", "u", .Dead, "sp", false, ""⟩ =
        .ok (⟨"u", [("u:sp", ⟨"u:sp", "u", .Dead, "sp", false, ""⟩)], [], []⟩,
          ⟨"u:sp", "u", .Dead, "sp", false, ""⟩)) ∧
    ((⟨"u:sp", "u", .Alive, "sp", false, ""⟩ : SpaceDoc).life ≠ .Dead ∧
      ensureDead ⟨"u", [], [], []⟩ ⟨"u:sp", "u", .Alive, "sp", false, ""⟩ =
        .error .notAlive) :=
  ⟨⟨rfl, (C4_ensure_dead ⟨"u", [("u:sp", ⟨"u:sp", "u", .Dead, "sp", false, ""⟩)], [], []⟩
      ⟨"u:sp", "u", .Dead, "sp", false, ""⟩).2.1 rfl⟩,
    ⟨by decide, (C4_ensure_dead ⟨"u", [], [], []⟩
      ⟨"u:sp", "u", .Alive, "sp", false, ""⟩).2.2.2 (by decide)
      (fun d h => Option.noConfusion h)⟩⟩

/-- C5: Remove fails with the not-dead error when the handle's life is
Alive or Dying, fails "not found or not dead" when the handle says Dead but
the stored document is gone or not Dead, and succeeds exactly from Dead —
removing the document (so a subsequent Refresh reports NotFound) and, when a
provider id is set, the denormalized provider-id index entry too. -/
theorem C5_remove (st : StoreState) (s : SpaceDoc) :
    (s.life ≠ .Dead → remove st s = .error .notDead) ∧
    (s.life = .Dead →
      (∀ d, findId st.spaces s.docID = some d → d.life ≠ .Dead) →
      remove st s = .error .notDeadOrNotFound) ∧
    (s.life = .Dead → ∀ d, findId st.spaces s.docID = some d → d.life = .Dead →
      ∃ st2, remove st s = .ok st2 ∧
        findId st2.spaces s.docID = none ∧
        refresh st2 s = .error .notFound ∧
        (s.providerId ≠ "" →
          st2.providerIds.contains ("space:" ++ s.providerId) = false)) := by
  refine ⟨?_, ?_, ?_⟩
  · intro hnd
    unfold remove
    rw [if_pos hnd]
  · intro hd hstored
    unfold remove
    rw [if_neg (by simp [hd])]
    have hassert : assertHolds st
        (⟨.spacesC, s.docID, .isDead, .removeDoc⟩ : Op) = false := by
      simp only [assertHolds]
      cases hsd : findId st.spaces s.docID with
      | none => simp [hsd]
      | some d => simp [hsd, hstored d hsd]
    have hrt : runTransaction st (removeOps s) = none := by
      unfold runTransaction removeOps
      simp [hassert]
    rw [hrt]
  · intro hd d hsd hdl
    have hassert : assertHolds st
        (⟨.spacesC, s.docID, .isDead, .removeDoc⟩ : Op) = true := by
      simp only [assertHolds]
      simp [hsd, hdl]
    have hall : (removeOps s).all (assertHolds st) = true := by
      unfold removeOps
      rw [List.all_cons, hassert]
      by_cases hpid : s.providerId = ""
      · simp [hpid]
      · have hp : (s.providerId != "") = true := by simp [hpid]
        simp [hp, networkEntityGlobalKeyRemoveOp, assertHolds]
    have hrt : runTransaction st (removeOps s) =
        some ((removeOps s).foldl applyOp st) := by
      unfold runTransaction
      rw [hall]
      rfl
    have hok : remove st s = .ok ((removeOps s).foldl applyOp st) := by
      unfold remove
      rw [if_neg (by simp [hd]), hrt]
    obtain ⟨hspaces, hpids⟩ := remove_ok_elim st _ s hok
    refine ⟨_, hok, ?_, ?_, ?_⟩
    · rw [hspaces, findId_filter_ne]
      simp
    · unfold refresh
      rw [hspaces, findId_filter_ne]
      simp
    · intro hpne
      rw [hpids, if_pos (by simp [hpne])]
      exact contains_filter_ne _ _

theorem C5_remove_witness :
    ((⟨"u:sp", "u", .Alive, "sp", false, ""⟩ : SpaceDoc).life ≠ .Dead ∧
      remove ⟨"u", [("u:sp", ⟨"u:sp", "u", .Alive, "sp", false, ""⟩)], [], []⟩
          ⟨"u:sp", "u", .Alive, "sp", false, ""⟩ = .error .notDead) ∧
    remove ⟨"u", [("u:sp", ⟨"u:sp", "u", .Alive, "sp", false, ""⟩)], [], []⟩
        ⟨"u:sp", "u", .Dead, "sp", false, ""⟩ = .error .notDeadOrNotFound ∧
    (∃ st2,
      remove ⟨"u", [("u:sp", ⟨"u:sp", "u", .Dead, "sp", false, "pid"⟩)], [], ["space:pid"]⟩
          ⟨"u:sp", "u", .Dead, "sp", false, "pid"⟩ = .ok st2 ∧
        findId st2.spaces "u:sp" = none ∧
        refresh st2 ⟨"u:sp", "u", .Dead, "sp", false, "pid"⟩ = .error .notFound ∧
        ("pid" ≠ "" → st2.providerIds.contains ("space:" ++ "pid") = false)) :=
  ⟨⟨by decide, (C5_remove ⟨"u", [("u:sp", ⟨"u:sp", "u", .Alive, "sp", false, ""⟩)], [], []⟩
      ⟨"u:sp", "u", .Alive, "sp", false, ""⟩).1 (by decide)⟩,
    (C5_remove ⟨"u", [("u:sp", ⟨"u:sp", "u", .Alive, "sp", false, ""⟩)], [], []⟩
      ⟨"u:sp", "u", .Dead, "sp", false, ""⟩).2.1 rfl
      (fun d h => by
        have h2 := Option.some.inj h
        rw [← h2]
        decide),
    (C5_remove ⟨"u", [("u:sp", ⟨"u:sp", "u", .Dead, "sp", false, "pid"⟩)], [], ["space:pid"]⟩
      ⟨"u:sp", "u", .Dead, "sp", false, "pid"⟩).2.2 rfl
      ⟨"u:sp", "u", .Dead, "sp", false, "pid"⟩ rfl rfl⟩

/-- A document equal to itself across a step cannot exhibit a backwards
life move. -/
theorem no_revive_of_eq (d d2 : SpaceDoc) (h : d = d2) :
    ¬(d.life = .Dead ∧ d2.life = .Alive) ∧
    ¬(d.life = .Dying ∧ d2.life = .Alive) := by
  subst h
  constructor <;> rintro ⟨h1, h2⟩ <;> rw [h1] at h2 <;> cases h2

/-- C6: along any sequence of successful space operations, one further step
never moves a persistent space document's life from Dead back to Alive or
from Dying back to Alive: AddSpace only inserts where the document was
missing, EnsureDead only writes Dead, and Remove only deletes. -/
theorem C6_life_monotonic (init st st2 : StoreState)
    (hreach : Reach init st) (hstep : SpacesStep st st2)
    (id : String) (d d2 : SpaceDoc)
    (hd : findId st.spaces id = some d)
    (hd2 : findId st2.spaces id = some d2) :
    ¬(d.life = .Dead ∧ d2.life = .Alive) ∧
    ¬(d.life = .Dying ∧ d2.life = .Alive) := by
  cases hstep with
  | addSpace name providerId subnets isPublic doc h =>
      obtain ⟨-, hfresh, hspaces⟩ :=
        addSpace_ok_elim st st2 name providerId subnets isPublic doc h
      rw [hspaces, findId_cons] at hd2
      by_cases hk : st.docID name = id
      · rw [hk] at hfresh
        rw [hfresh] at hd
        cases hd
      · have hkb : (st.docID name == id) = false := by simp [hk]
        rw [hkb] at hd2
        simp only [Bool.false_eq_true, if_false] at hd2
        exact no_revive_of_eq d d2 (Option.some.inj (hd.symm.trans hd2))
  | ensureDead s s2 h =>
      obtain ⟨-, hcase⟩ := ensureDead_ok_elim st st2 s s2 h
      rcases hcase with ⟨rfl, rfl⟩ | ⟨hspaces, rfl⟩
      · exact no_revive_of_eq d d2 (Option.some.inj (hd.symm.trans hd2))
      · rw [hspaces, findId_map_update, hd] at hd2
        have hdd := Option.some.inj hd2
        by_cases hk : s.docID = id
        · have hkb : (s.docID == id) = true := by simp [hk]
          rw [hkb] at hdd
          simp only [if_true] at hdd
          rw [← hdd]
          constructor <;> rintro ⟨h1, h2⟩ <;> simp [setDocDead] at h2
        · have hkb : (s.docID == id) = false := by simp [hk]
          rw [hkb] at hdd
          simp only [Bool.false_eq_true, if_false] at hdd
          exact no_revive_of_eq d d2 hdd
  | remove s h =>
      obtain ⟨hspaces, -⟩ := remove_ok_elim st st2 s h
      rw [hspaces, findId_filter_ne] at hd2
      by_cases hk : s.docID = id
      · have hkb : (s.docID == id) = true := by simp [hk]
        rw [hkb] at hd2
        simp only [if_true] at hd2
        cases hd2
      · have hkb : (s.docID == id) = false := by simp [hk]
        rw [hkb] at hd2
        simp only [Bool.false_eq_true, if_false] at hd2
        exact no_revive_of_eq d d2 (Option.some.inj (hd.symm.trans hd2))

theorem C6_life_monotonic_witness :
    findId (⟨"u", [("u:a", ⟨"u:a", "u", .Alive, "a", false, ""⟩)], [], []⟩ :
        StoreState).spaces "u:a" = some ⟨"u:a", "u", .Alive, "a", false, ""⟩ ∧
    findId (⟨"u", [("u:b", ⟨"u:b", "u", .Alive, "b", false, ""⟩),
        ("u:a", ⟨"u:a", "u", .Alive, "a", false, ""⟩)], [], []⟩ :
        StoreState).spaces "u:a" = some ⟨"u:a", "u", .Alive, "a", false, ""⟩ ∧
    (¬((⟨"u:a", "u", .Alive, "a", false, ""⟩ : SpaceDoc).life = .Dead ∧
        (⟨"u:a", "u", .Alive, "a", false, ""⟩ : SpaceDoc).life = .Alive) ∧
      ¬((⟨"u:a", "u", .Alive, "a", false, ""⟩ : SpaceDoc).life = .Dying ∧
        (⟨"u:a", "u", .Alive, "a", false, ""⟩ : SpaceDoc).life = .Alive)) :=
  ⟨by decide, by decide,
    C6_life_monotonic ⟨"u", [], [], []⟩
      ⟨"u", [("u:a", ⟨"u:a", "u", .Alive, "a", false, ""⟩)], [], []⟩
      ⟨"u", [("u:b", ⟨"u:b", "u", .Alive, "b", false, ""⟩),
        ("u:a", ⟨"u:a", "u", .Alive, "a", false, ""⟩)], [], []⟩
      (Reach.step _ _ _ (Reach.refl _)
        (SpacesStep.addSpace ⟨"u", [], [], []⟩
          ⟨"u", [("u:a", ⟨"u:a", "u", .Alive, "a", false, ""⟩)], [], []⟩
          "a" "" [] false ⟨"u:a", "u", .Alive, "a", false, ""⟩ (by rfl)))
      (SpacesStep.addSpace ⟨"u", [("u:a", ⟨"u:a", "u", .Alive, "a", false, ""⟩)], [], []⟩
        ⟨"u", [("u:b", ⟨"u:b", "u", .Alive, "b", false, ""⟩),
          ("u:a", ⟨"u:a", "u", .Alive, "a", false, ""⟩)], [], []⟩
        "b" "" [] false ⟨"u:b", "u", .Alive, "b", false, ""⟩ (by rfl))
      "u:a" ⟨"u:a", "u", .Alive, "a", false, ""⟩ ⟨"u:a", "u", .Alive, "a", false, ""⟩
      (by decide) (by decide)⟩

end JujuState
